import Mathlib

/-!
Shallow embedding of the `itm` crate (ARM ITM/DWT trace packet decoder).

Sources embedded here:
- `src/itm/src/lib.rs` — bit buffer, header decoder, packet decoder;
- `src/itm/src/iter.rs` — the `Timestamps` reducer (`Gts`, `calc_offset`,
  `next_timestamped`).

The byte stream is modelled as a `List Bool` of bits in pop order: the
source's `Buffer` stores input bytes in a `BitVec` reversed so that popping
from the tail yields the bits of each byte LSB-first (`Buffer::buffer_some`,
`Buffer::pop_bit`). Machine integers are modelled as `Nat` with explicit
`% 2^w` at the places the source truncates (the `as u32` cast on a
LocalTimestamp1 value, the `u64` shift in `Gts::merge`). Fallible
operations return `Except`. Loops whose iteration count is bounded by the
remaining input are given explicit fuel; every wrapper instantiates the fuel
with a bound that the loop can never exhaust before end-of-input.
-/

deriving instance DecidableEq for Except

namespace ITM

/-- `TimestampDataRelation` (src/itm/src/lib.rs:222). -/
inductive TimestampDataRelation
  | sync
  | unknownDelay
  | assocEventDelay
  | unknownAssocEventDelay
deriving DecidableEq

/-- `ExceptionAction` (src/itm/src/lib.rs:195). -/
inductive ExceptionAction
  | entered
  | exited
  | returned
deriving DecidableEq

/-- `MemoryAccessType` (src/itm/src/lib.rs:209). -/
inductive MemoryAccessType
  | read
  | write
deriving DecidableEq

/-- `cortex_m::peripheral::scb::VectActive`, re-exported by the crate.
An `exception` carries the raw system-exception number. -/
inductive VectActive
  | threadMode
  | exception (number : Nat)
  | interrupt (irqn : Nat)
deriving DecidableEq

/-- Modelled from the spec: `cortex_m::peripheral::scb::VectActive::from`, an
external dependency whose source is not part of this repository. The spec
(§3) fixes the valid system-exception numbers as 1, 2, 3, 4, 5, 6, 11, 12,
14, 15 and numbers ≥ 16 as external interrupts; the repository's own tests
(`src/itm/tests/singles.rs`, `decode_exceptiontrace_packet`: exception
number 32 yields `Interrupt { irqn: 32 }`, and `src/tests/decode_tests.rs`)
pin that the `irqn` field holds the raw exception number, not
`number - 16`. -/
def vect_active_of_nat (n : Nat) : Option VectActive :=
  if 16 ≤ n then some (.interrupt n)
  else if n = 0 then some .threadMode
  else if n = 1 ∨ n = 2 ∨ n = 3 ∨ n = 4 ∨ n = 5 ∨ n = 6 ∨ n = 11 ∨ n = 12 ∨ n = 14 ∨ n = 15 then
    some (.exception n)
  else none

/-- `TracePacket` (src/itm/src/lib.rs:51). -/
inductive TracePacket
  | sync
  | overflow
  | localTimestamp1 (ts : Nat) (data_relation : TimestampDataRelation)
  | localTimestamp2 (ts : Nat)
  | globalTimestamp1 (ts : Nat) (wrap : Bool) (clkch : Bool)
  | globalTimestamp2 (ts : Nat)
  | extension (page : Nat)
  | instrumentation (port : Nat) (payload : List Nat)
  | eventCounterWrap (cyc fold lsu sleep exc cpi : Bool)
  | exceptionTrace (exception : VectActive) (action : ExceptionAction)
  | pcSample (pc : Option Nat)
  | dataTracePC (comparator : Nat) (pc : Nat)
  | dataTraceAddress (comparator : Nat) (data : List Nat)
  | dataTraceValue (comparator : Nat) (access_type : MemoryAccessType) (value : List Nat)
deriving DecidableEq

/-- Whether a packet is a local timestamp (the two variants on which
`Timestamps::next_timestamped` returns a batch). -/
def TracePacket.isLts : TracePacket → Bool
  | .localTimestamp1 _ _ => true
  | .localTimestamp2 _ => true
  | _ => false

/-- Whether a packet is a `LocalTimestamp2`. -/
def TracePacket.isLts2 : TracePacket → Bool
  | .localTimestamp2 _ => true
  | _ => false

/-- Whether a packet is a global timestamp (the two variants on which
`Timestamps::next_timestamped` updates its `Gts` state). -/
def TracePacket.isGts : TracePacket → Bool
  | .globalTimestamp1 _ _ _ => true
  | .globalTimestamp2 _ => true
  | _ => false

/-- `MalformedPacket` (src/itm/src/lib.rs:257). -/
inductive MalformedPacket
  | invalidHeader (header : Nat)
  | invalidHardwarePacket (disc_id : Nat) (payload : List Nat)
  | invalidHardwareDisc (disc_id : Nat) (size : Nat)
  | invalidExceptionTrace (exception : Nat) (function : Nat)
  | invalidPCSampleSize (payload : List Nat)
  | invalidGTS2Size (payload : List Nat)
  | invalidSync (zeros : Nat)
  | invalidSourcePayload (header : Nat) (size : Nat)
deriving DecidableEq

/-- `DecoderErrorInt` (src/itm/src/lib.rs:382), without the `Io` variant:
the model has no I/O layer, end of the bit list is `eof`. -/
inductive DecoderErrorInt
  | eof
  | malformed (m : MalformedPacket)
deriving DecidableEq

/-- `PacketStub` (src/itm/src/lib.rs:339). -/
inductive PacketStub
  | syncStub (count : Nat)
  | instrumentation (port : Nat) (expected_size : Nat)
  | hardwareSource (disc_id : Nat) (expected_size : Nat)
  | localTimestamp (data_relation : TimestampDataRelation)
  | globalTimestamp1
  | globalTimestamp2
deriving DecidableEq

/-- `HeaderVariant` (src/itm/src/lib.rs:367). -/
inductive HeaderVariant
  | packet (p : TracePacket)
  | stub (s : PacketStub)
deriving DecidableEq

/-- `SYNC_MIN_ZEROS` (src/itm/src/lib.rs:333). -/
def SYNC_MIN_ZEROS : Nat := 47

/-- The bits of one input byte in pop order. `Buffer::pop_byte` packs the
first popped bit into bit 0, so the buffer delivers each byte LSB-first. -/
def byteBits (b : Nat) : List Bool :=
  [b.testBit 0, b.testBit 1, b.testBit 2, b.testBit 3,
   b.testBit 4, b.testBit 5, b.testBit 6, b.testBit 7]

/-- The bit stream fed by a byte list (`Buffer::buffer_some` preserves byte
order, each byte LSB-first). -/
def bitsOfBytes (bs : List Nat) : List Bool :=
  (bs.map byteBits).flatten

/-- `Buffer::pop_byte` (src/itm/src/lib.rs:469): pop 8 bits, the first
popped bit is bit 0 of the result. Fewer than 8 bits left is end of
input. -/
def pop_byte : List Bool → Except DecoderErrorInt (Nat × List Bool)
  | b0 :: b1 :: b2 :: b3 :: b4 :: b5 :: b6 :: b7 :: rest =>
      .ok ((cond b0 1 0) + (cond b1 2 0) + (cond b2 4 0) + (cond b3 8 0) +
           (cond b4 16 0) + (cond b5 32 0) + (cond b6 64 0) + (cond b7 128 0), rest)
  | _ => .error .eof

/-- `Buffer::pop_bytes` (src/itm/src/lib.rs:480). -/
def pop_bytes : Nat → List Bool → Except DecoderErrorInt (List Nat × List Bool)
  | 0, bits => .ok ([], bits)
  | n + 1, bits =>
    match pop_byte bits with
    | .error e => .error e
    | .ok (b, rest) =>
      match pop_bytes n rest with
      | .error e => .error e
      | .ok (bs, rest') => .ok (b :: bs, rest')

/-- The loop of `Buffer::pop_payload` (src/itm/src/lib.rs:493), with fuel:
pop bytes until one with the continuation bit (bit 7) clear; return all
popped bytes including the terminator. Each iteration consumes 8 bits, so
fuel `bits.length` can never be exhausted before end of input. -/
def pop_payload_fuel : Nat → List Bool → Except DecoderErrorInt (List Nat × List Bool)
  | 0, _ => .error .eof
  | fuel + 1, bits =>
    match pop_byte bits with
    | .error e => .error e
    | .ok (b, rest) =>
      if b < 128 then .ok ([b], rest)
      else
        match pop_payload_fuel fuel rest with
        | .error e => .error e
        | .ok (p, rest') => .ok (b :: p, rest')

/-- `Buffer::pop_payload` (src/itm/src/lib.rs:493). -/
def pop_payload (bits : List Bool) : Except DecoderErrorInt (List Nat × List Bool) :=
  pop_payload_fuel bits.length bits

/-- `translate_ss` inside `decode_header` (src/itm/src/lib.rs:684): payload
size from the header's `ss` field, header byte already consumed. -/
def translate_ss (ss : Nat) : Option Nat :=
  if ss = 1 then some 1
  else if ss = 2 then some 2
  else if ss = 3 then some 4
  else none

/-- `decode_header` (src/itm/src/lib.rs:683). The `bitmatch` arms are
tested in source order. The final `InvalidHeader` arm of the source is
unreachable: the two source-packet patterns together match every byte not
matched earlier. -/
def decode_header (header : Nat) : Except MalformedPacket HeaderVariant :=
  if header = 0x00 then
    .ok (.stub (.syncStub 8))
  else if header = 0x70 then
    .ok (.packet .overflow)
  else if header &&& 0xCF = 0xC0 then
    -- "11rr_0000": LTS1 start
    let tc := (header >>> 4) &&& 3
    .ok (.stub (.localTimestamp
      (if tc = 0 then .sync
       else if tc = 1 then .unknownDelay
       else if tc = 2 then .assocEventDelay
       else .unknownAssocEventDelay)))
  else if header &&& 0x8F = 0x00 then
    -- "0ttt_0000": LTS2, complete
    .ok (.packet (.localTimestamp2 ((header >>> 4) &&& 7)))
  else if header = 0x94 then
    .ok (.stub .globalTimestamp1)
  else if header = 0xB4 then
    .ok (.stub .globalTimestamp2)
  else if header &&& 0x8F = 0x08 then
    -- "0ppp_1000": extension, complete
    .ok (.packet (.extension ((header >>> 4) &&& 7)))
  else if header &&& 0x04 = 0x00 then
    -- "aaaa_a0ss": instrumentation
    match translate_ss (header &&& 3) with
    | some sz => .ok (.stub (.instrumentation (header >>> 3) sz))
    | none => .error (.invalidSourcePayload header (header &&& 3))
  else
    -- "aaaa_a1ss": hardware source
    let disc_id := header >>> 3
    if ¬(disc_id ≤ 2 ∨ (8 ≤ disc_id ∧ disc_id ≤ 23)) then
      .error (.invalidHardwareDisc disc_id (header &&& 3))
    else
      match translate_ss (header &&& 3) with
      | some sz => .ok (.stub (.hardwareSource disc_id sz))
      | none => .error (.invalidSourcePayload header (header &&& 3))

/-- `u32::from_le_bytes` on a 4-byte payload (only ever applied to
payloads of length exactly 4 in the source). -/
def u32_from_le_bytes : List Nat → Nat
  | [b0, b1, b2, b3] => b0 + (b1 <<< 8) + (b2 <<< 16) + (b3 <<< 24)
  | _ => 0

/-- `handle_hardware_source` (src/itm/src/lib.rs:776). -/
def handle_hardware_source (disc_id : Nat) (payload : List Nat) :
    Except MalformedPacket TracePacket :=
  if disc_id = 0 then
    -- event counter wrap; "??yf_lsec"
    match payload with
    | [b] =>
      .ok (.eventCounterWrap (b.testBit 5) (b.testBit 4) (b.testBit 3)
        (b.testBit 2) (b.testBit 1) (b.testBit 0))
    | _ => .error (.invalidHardwarePacket disc_id payload)
  else if disc_id = 1 then
    -- exception trace; payload[1] is "??ff_???e"
    match payload with
    | [b0, b1] =>
      let f := (b1 >>> 4) &&& 3
      let exception_number := ((b1 &&& 1) <<< 8) ||| b0
      -- `u16 → u8` conversion: numbers ≥ 256 are rejected
      if 256 ≤ exception_number then
        .error (.invalidExceptionTrace exception_number f)
      else
        match vect_active_of_nat exception_number with
        | none => .error (.invalidExceptionTrace exception_number f)
        | some exc =>
          if f = 1 then .ok (.exceptionTrace exc .entered)
          else if f = 2 then .ok (.exceptionTrace exc .exited)
          else if f = 3 then .ok (.exceptionTrace exc .returned)
          else .error (.invalidExceptionTrace exception_number f)
    | _ => .error (.invalidHardwarePacket disc_id payload)
  else if disc_id = 2 then
    -- PC sample
    match payload with
    | [b] => if b = 0 then .ok (.pcSample none)
             else .error (.invalidPCSampleSize payload)
    | [b0, b1, b2, b3] => .ok (.pcSample (some (u32_from_le_bytes [b0, b1, b2, b3])))
    | _ => .error (.invalidPCSampleSize payload)
  else
    -- data trace, disc_id in 8..=23; "???t_tccd"
    let t := (disc_id >>> 3) &&& 3
    let c := (disc_id >>> 1) &&& 3
    let d := disc_id &&& 1
    if t = 1 ∧ d = 0 ∧ payload.length = 4 then
      .ok (.dataTracePC c (u32_from_le_bytes payload))
    else if t = 1 ∧ d = 1 ∧ payload.length = 2 then
      .ok (.dataTraceAddress c payload)
    else if t = 2 then
      .ok (.dataTraceValue c (if d = 0 then .read else .write) payload)
    else
      .error (.invalidHardwarePacket disc_id payload)

/-- The accumulation loop of `extract_timestamp` (src/itm/src/lib.rs:668)
over the non-final payload bytes: `ts |= (b & !(1 << 7)) << (7 * i)`,
first byte at shift 0. -/
def lts_low_bits : List Nat → Nat
  | [] => 0
  | b :: rest => (b &&& 127) ||| (lts_low_bits rest <<< 7)

/-- `extract_timestamp` (src/itm/src/lib.rs:664). The final byte is masked
with `0xFF.wrapping_shl(shift) >> shift`, `shift = 7 - max_len % 7`, and
shifted by 7 bits per non-final byte. The source unwraps a nonempty
payload; on `[]` this model returns 0, a case no caller reaches. -/
def extract_timestamp (payload : List Nat) (max_len : Nat) : Nat :=
  let shift := 7 - max_len % 7
  let mask := ((0xFF <<< shift) % 256) >>> shift
  lts_low_bits payload.dropLast |||
    (((payload.getLast?.getD 0) &&& mask) <<< (7 * (payload.length - 1)))

/-- The timestamp-extraction rule in the words of the spec (§4.3):
concatenate the lower 7 bits of each non-final byte in payload order,
first byte least significant, then the final byte masked by
`(0xFF << shift) >> shift` (over `u8`), `shift = 7 - max_bits % 7`, placed
at position `7 * (payload_len - 1)`. Stated with `%`, `+` and `*` instead
of the source's bit operations, for comparison with `extract_timestamp`. -/
def extract_timestamp_spec (payload : List Nat) (max_bits : Nat) : Nat :=
  let shift := 7 - max_bits % 7
  let mask := ((0xFF <<< shift) % 256) >>> shift
  let rec low : List Nat → Nat
    | [] => 0
    | b :: rest => b % 128 + 128 * low rest
  low payload.dropLast +
    ((payload.getLast?.getD 0) &&& mask) * 128 ^ (payload.length - 1)

/-- The decoder's state between pulls: `Decoder::sync`
(src/itm/src/lib.rs:520) plus the remaining bit stream of its buffer. A
`sync = none` state is the Header state. -/
structure DecState where
  sync : Option Nat
  bits : List Bool
deriving DecidableEq

/-- `Decoder::handle_sync` (src/itm/src/lib.rs:576): read zeros from the
bit stream, counting, until the first set bit; at that bit emit `Sync` if
at least `SYNC_MIN_ZEROS` zeros were counted and `InvalidSync` with the
count otherwise, clearing the sync state either way. Running out of bits
leaves the count stored (the decoder stays mid-packet). -/
def handle_sync : Nat → List Bool → Except DecoderErrorInt TracePacket × DecState
  | zeros, [] => (.error .eof, ⟨some zeros, []⟩)
  | zeros, false :: rest => handle_sync (zeros + 1) rest
  | zeros, true :: rest =>
    if SYNC_MIN_ZEROS ≤ zeros then (.ok .sync, ⟨none, rest⟩)
    else (.error (.malformed (.invalidSync zeros)), ⟨none, rest⟩)

/-- `Decoder::process_stub` (src/itm/src/lib.rs:596), acting on the bit
stream that follows the header byte. -/
def process_stub (stub : PacketStub) (bits : List Bool) :
    Except DecoderErrorInt TracePacket × DecState :=
  match stub with
  | .syncStub count => handle_sync count bits
  | .hardwareSource disc_id expected_size =>
    match pop_bytes expected_size bits with
    | .error e => (.error e, ⟨none, bits⟩)
    | .ok (payload, rest) =>
      match handle_hardware_source disc_id payload with
      | .ok p => (.ok p, ⟨none, rest⟩)
      | .error m => (.error (.malformed m), ⟨none, rest⟩)
  | .localTimestamp data_relation =>
    match pop_payload bits with
    | .error e => (.error e, ⟨none, bits⟩)
    | .ok (payload, rest) =>
      -- MAGIC(27), with the `as u32` cast of the source
      (.ok (.localTimestamp1 (extract_timestamp payload 27 % 4294967296) data_relation),
       ⟨none, rest⟩)
  | .globalTimestamp1 =>
    match pop_payload bits with
    | .error e => (.error e, ⟨none, bits⟩)
    | .ok (payload, rest) =>
      -- final byte is "?wc?_????"; MAGIC(25)
      let last := payload.getLast?.getD 0
      (.ok (.globalTimestamp1 (extract_timestamp payload 25)
        (last.testBit 6) (last.testBit 5)), ⟨none, rest⟩)
  | .globalTimestamp2 =>
    match pop_payload bits with
    | .error e => (.error e, ⟨none, bits⟩)
    | .ok (payload, rest) =>
      if payload.length = 4 then
        (.ok (.globalTimestamp2 (extract_timestamp payload (47 - 26))), ⟨none, rest⟩)
      else if payload.length = 6 then
        (.ok (.globalTimestamp2 (extract_timestamp payload (63 - 26))), ⟨none, rest⟩)
      else
        (.error (.malformed (.invalidGTS2Size payload)), ⟨none, rest⟩)
  | .instrumentation port expected_size =>
    match pop_bytes expected_size bits with
    | .error e => (.error e, ⟨none, bits⟩)
    | .ok (payload, rest) => (.ok (.instrumentation port payload), ⟨none, rest⟩)

/-- `Decoder::next_single` (src/itm/src/lib.rs:561): continue a pending
synchronization packet, otherwise pop a header byte, decode it, and
process the resulting stub if any. -/
def next_single (s : DecState) : Except DecoderErrorInt TracePacket × DecState :=
  match s.sync with
  | some zeros => handle_sync zeros s.bits
  | none =>
    match pop_byte s.bits with
    | .error e => (.error e, s)
    | .ok (header, rest) =>
      match decode_header header with
      | .error m => (.error (.malformed m), ⟨none, rest⟩)
      | .ok (.packet p) => (.ok p, ⟨none, rest⟩)
      | .ok (.stub stub) => process_stub stub rest

/-- A fresh decoder over the given input bytes (`Decoder::new` with
`ignore_eof = false`). -/
def initState (bytes : List Nat) : DecState :=
  ⟨none, bitsOfBytes bytes⟩

/-- The `Singles` iteration (src/itm/src/iter.rs:33): pull packets until
end of input, yielding decoded packets and malformed-packet errors. The
fuel bounds the number of pulls. -/
def decodeAll : Nat → DecState → List (Except MalformedPacket TracePacket)
  | 0, _ => []
  | fuel + 1, s =>
    match next_single s with
    | (.error .eof, _) => []
    | (.error (.malformed m), s') => .error m :: decodeAll fuel s'
    | (.ok p, s') => .ok p :: decodeAll fuel s'

/-- Modelled from the spec: `cortex_m::peripheral::itm::LocalTimestampOptions`
(external dependency, re-exported by src/itm/src/iter.rs:8); the prescaler
is 1, 4, 16 or 64, or disabled. -/
inductive LocalTimestampOptions
  | enabled
  | enabledDiv4
  | enabledDiv16
  | enabledDiv64
  | disabled
deriving DecidableEq

/-- `TimestampsConfiguration` (src/itm/src/iter.rs:47). -/
structure TimestampsConfiguration where
  clock_frequency : Nat
  lts_prescaler : LocalTimestampOptions
  expect_malformed : Bool
deriving DecidableEq

/-- `Timestamp` (src/itm/src/iter.rs:87); the offset is a duration in
nanoseconds. -/
structure Timestamp where
  offset : Nat
  data_relation : TimestampDataRelation
deriving DecidableEq

/-- `TimestampedTracePackets` (src/itm/src/iter.rs:66). -/
structure TimestampedTracePackets where
  timestamp : Timestamp
  packets : List TracePacket
  malformed_packets : List MalformedPacket
  consumed_packets : Nat
deriving DecidableEq

/-- `Gts` (src/itm/src/iter.rs:115): the rolling global-timestamp halves. -/
structure Gts where
  lower : Option Nat
  upper : Option Nat
deriving DecidableEq

/-- `Gts::GTS2_SHIFT` (src/itm/src/iter.rs:120). -/
def GTS2_SHIFT : Nat := 26

/-- `u64::leading_zeros` of a value held in a 64-bit register: 64 minus
the position (plus one) of the highest set bit among bits 0..63. -/
def leading_zeros64 (n : Nat) : Nat :=
  64 - (List.range 64).foldl (fun acc i => if n.testBit i then i + 1 else acc) 0

/-- `Gts::replace_lower` (src/itm/src/iter.rs:122): prefix merge of a new
lower value, with `shift = 64 - new.leading_zeros()`. The `u64` shifts are
modelled on `Nat` (exact for every value the decoder emits). -/
def Gts.replace_lower (g : Gts) (new : Nat) : Gts :=
  match g.lower with
  | none => { g with lower := some new }
  | some old =>
    let shift := 64 - leading_zeros64 new
    { g with lower := some (((old >>> shift) <<< shift) ||| new) }

/-- `Gts::reset` (src/itm/src/iter.rs:132). -/
def Gts.reset (_ : Gts) : Gts :=
  ⟨none, none⟩

/-- `Gts::merge` (src/itm/src/iter.rs:137): `(upper << 26) | lower` when
both halves are present, with the `u64` truncation of the shift made
explicit. -/
def Gts.merge (g : Gts) : Option Nat :=
  match g.lower, g.upper with
  | some lower, some upper => some ((upper <<< GTS2_SHIFT) % 2 ^ 64 ||| lower)
  | _, _ => none

/-- `calc_offset` (src/itm/src/iter.rs:323) as a count of nanoseconds.
The source computes `ceil((ticks / freq) * 1e9)` through `f64`
floating-point arithmetic, which cannot be shallowly embedded; this model
computes the exact round-up value `⌈ticks * 10^9 / freq⌉` that the
source's own comment asks for ("we round up so as to not report an event
before it occurs on hardware"). The divergence between the `f64`
computation and this exact value is the subject of claim C4. The
`disabled` prescaler is unreachable (`Timestamps::new` rejects it,
src/itm/src/iter.rs:186). -/
def calc_offset (ts : Nat) (prescaler : Option LocalTimestampOptions) (freq : Nat) : Nat :=
  let prescale :=
    match prescaler with
    | none | some .enabled => 1
    | some .enabledDiv4 => 4
    | some .enabledDiv16 => 16
    | some .enabledDiv64 => 64
    | some .disabled => 1
  let ticks := ts * prescale
  (ticks * 1000000000 + (freq - 1)) / freq

/-- `apply_lts` (src/itm/src/iter.rs:211): add the local-timestamp delta
to the running offset and label the batch with the new offset. Returns the
new `current_offset` together with the batch `Timestamp`. -/
def apply_lts (lts : Nat) (data_relation : TimestampDataRelation)
    (current_offset : Nat) (options : TimestampsConfiguration) : Nat × Timestamp :=
  let offset := calc_offset lts (some options.lts_prescaler) options.clock_frequency
  let co := current_offset + offset
  (co, ⟨co, data_relation⟩)

/-- `apply_gts` (src/itm/src/iter.rs:226): when both halves are present,
assign (not add) the offset recomputed from the merged value. -/
def apply_gts (gts : Gts) (current_offset : Nat) (options : TimestampsConfiguration) : Nat :=
  match gts.merge with
  | some m => calc_offset m none options.clock_frequency
  | none => current_offset

/-- The state of a `Timestamps` iterator (src/itm/src/iter.rs:104): the
wrapped decoder, the running offset, and the global-timestamp halves. -/
structure TsState where
  dec : DecState
  current_offset : Nat
  gts : Gts
deriving DecidableEq

/-- A fresh `Timestamps` state over the given input bytes
(src/itm/src/iter.rs:185). -/
def initTsState (bytes : List Nat) : TsState :=
  ⟨initState bytes, 0, ⟨none, none⟩⟩

/-- The loop of `Timestamps::next_timestamped` (src/itm/src/iter.rs:233),
with fuel: pull packets, buffering data packets and folding timestamp
packets into the state, until a local timestamp closes a batch. Every
iteration consumes at least one bit of input, so fuel
`bits.length + 1` can never be exhausted before a return. -/
def next_timestamped_fuel (options : TimestampsConfiguration) :
    Nat → TsState → List TracePacket → List MalformedPacket → Nat →
    Except DecoderErrorInt TimestampedTracePackets × TsState
  | 0, s, _, _, _ => (.error .eof, s)
  | fuel + 1, s, packets, malformed, consumed =>
    match next_single s.dec with
    | (.error (.malformed m), d') =>
      if options.expect_malformed then
        next_timestamped_fuel options fuel { s with dec := d' } packets
          (malformed ++ [m]) (consumed + 1)
      else (.error (.malformed m), { s with dec := d' })
    | (.error .eof, d') => (.error .eof, { s with dec := d' })
    | (.ok p, d') =>
      match p with
      | .localTimestamp1 ts data_relation =>
        let (co, t) := apply_lts ts data_relation s.current_offset options
        (.ok ⟨t, packets, malformed, consumed + 1⟩, ⟨d', co, s.gts⟩)
      | .localTimestamp2 ts =>
        let (co, t) := apply_lts ts .sync s.current_offset options
        (.ok ⟨t, packets, malformed, consumed + 1⟩, ⟨d', co, s.gts⟩)
      | .globalTimestamp1 ts wrap clkch =>
        let g1 := s.gts.replace_lower ts
        if wrap then
          next_timestamped_fuel options fuel ⟨d', s.current_offset, { g1 with upper := none }⟩
            packets malformed (consumed + 1)
        else if clkch then
          next_timestamped_fuel options fuel ⟨d', s.current_offset, g1.reset⟩
            packets malformed (consumed + 1)
        else
          next_timestamped_fuel options fuel
            ⟨d', apply_gts g1 s.current_offset options, g1⟩
            packets malformed (consumed + 1)
      | .globalTimestamp2 ts =>
        let g1 : Gts := { s.gts with upper := some ts }
        next_timestamped_fuel options fuel
          ⟨d', apply_gts g1 s.current_offset options, g1⟩
          packets malformed (consumed + 1)
      | packet =>
        next_timestamped_fuel options fuel { s with dec := d' }
          (packets ++ [packet]) malformed (consumed + 1)

/-- `Timestamps::next_timestamped` (src/itm/src/iter.rs:201). -/
def next_timestamped (options : TimestampsConfiguration) (s : TsState) :
    Except DecoderErrorInt TimestampedTracePackets × TsState :=
  next_timestamped_fuel options (s.dec.bits.length + 1) s [] [] 0

/-- `Timestamps::next` (src/itm/src/iter.rs:311): end of input becomes
end of iteration (`none`), other outcomes are yielded. -/
def timestamps_next (options : TimestampsConfiguration) (s : TsState) :
    Option (Except MalformedPacket TimestampedTracePackets) × TsState :=
  match next_timestamped options s with
  | (.error .eof, s') => (none, s')
  | (.error (.malformed m), s') => (some (.error m), s')
  | (.ok b, s') => (some (.ok b), s')

/-- Within the given number of pulls, the decoder reaches end of input
yielding only packets that are not local timestamps — the shape of input
under which claim C10 asserts `Timestamps` ends without a partial batch. -/
def endsWithoutLts : Nat → DecState → Bool
  | 0, _ => false
  | fuel + 1, s =>
    match next_single s with
    | (.error .eof, _) => true
    | (.error (.malformed _), _) => false
    | (.ok p, s') => !p.isLts && endsWithoutLts fuel s'

/-- Within the given number of pulls, the decoder yields no global
timestamp and no malformed packet before the local timestamp that closes
the current batch — the shape of input under which batch offsets only
grow (claim C5). -/
def noGtsBeforeLts : Nat → DecState → Bool
  | 0, _ => false
  | fuel + 1, s =>
    match next_single s with
    | (.error _, _) => false
    | (.ok p, s') => p.isLts || (!p.isGts && noGtsBeforeLts fuel s')

/-! ## Helper lemmas -/

set_option maxRecDepth 8192 in
/-- Popping a byte from the bit stream of a byte value below 256 returns
that byte and leaves the rest of the stream untouched. -/
theorem pop_byte_byteBits {h : Nat} (hh : h < 256) (rest : List Bool) :
    pop_byte (byteBits h ++ rest) = .ok (h, rest) := by
  have hv : ∀ h' : Nat, h' < 256 →
      (cond (h'.testBit 0) 1 0) + (cond (h'.testBit 1) 2 0) + (cond (h'.testBit 2) 4 0) +
        (cond (h'.testBit 3) 8 0) + (cond (h'.testBit 4) 16 0) + (cond (h'.testBit 5) 32 0) +
        (cond (h'.testBit 6) 64 0) + (cond (h'.testBit 7) 128 0) = h' := by decide
  have hstep : pop_byte (byteBits h ++ rest) =
      .ok ((cond (h.testBit 0) 1 0) + (cond (h.testBit 1) 2 0) + (cond (h.testBit 2) 4 0) +
        (cond (h.testBit 3) 8 0) + (cond (h.testBit 4) 16 0) + (cond (h.testBit 5) 32 0) +
        (cond (h.testBit 6) 64 0) + (cond (h.testBit 7) 128 0), rest) := rfl
  rw [hstep, hv h hh]

/-- The value assembled by `pop_byte` is always below 256. -/
theorem pop_byte_lt {bits rest : List Bool} {b : Nat}
    (h : pop_byte bits = .ok (b, rest)) : b < 256 := by
  match bits with
  | b0 :: b1 :: b2 :: b3 :: b4 :: b5 :: b6 :: b7 :: tail =>
    simp only [pop_byte, Except.ok.injEq, Prod.mk.injEq] at h
    obtain ⟨rfl, -⟩ := h
    cases b0 <;> cases b1 <;> cases b2 <;> cases b3 <;>
      cases b4 <;> cases b5 <;> cases b6 <;> cases b7 <;> decide
  | [] => simp [pop_byte] at h
  | [_] => simp [pop_byte] at h
  | [_, _] => simp [pop_byte] at h
  | [_, _, _] => simp [pop_byte] at h
  | [_, _, _, _] => simp [pop_byte] at h
  | [_, _, _, _, _] => simp [pop_byte] at h
  | [_, _, _, _, _, _] => simp [pop_byte] at h
  | [_, _, _, _, _, _, _] => simp [pop_byte] at h

/-- `handle_sync` on a run of zeros followed by a set bit: the zeros are
counted on top of the entering count, and the set bit resolves the packet
by the `SYNC_MIN_ZEROS` threshold. -/
theorem handle_sync_run (c m : Nat) (rest : List Bool) :
    handle_sync c (List.replicate m false ++ true :: rest) =
      (if SYNC_MIN_ZEROS ≤ c + m then (.ok .sync, ⟨none, rest⟩)
       else (.error (.malformed (.invalidSync (c + m))), ⟨none, rest⟩)) := by
  induction m generalizing c with
  | zero => simp [handle_sync]
  | succ k ih =>
    have hc : c + 1 + k = c + (k + 1) := by omega
    simp [List.replicate_succ, handle_sync, ih (c + 1), hc]

/-! ## Claims -/

/-- C1. The sync machinery emits a `Sync` packet iff the input, taken from
a packet boundary, carries at least 47 consecutive zero bits before the
first set bit (the terminating set bit may sit at any bit position); with
exactly 46 zero bits the decoder returns `InvalidSync 46`; concretely, six
`0x00` bytes followed by `0x80` decode to a single `Sync` packet. -/
theorem C1_sync_threshold :
    (∀ (n : Nat) (rest : List Bool), 8 ≤ n →
      next_single ⟨none, List.replicate n false ++ true :: rest⟩ =
        (if 47 ≤ n then (.ok .sync, ⟨none, rest⟩)
         else (.error (.malformed (.invalidSync n)), ⟨none, rest⟩)))
    ∧ decodeAll 8 (initState [0x00, 0x00, 0x00, 0x00, 0x00, 0x00, 0x80]) = [.ok .sync] := by
  constructor
  · intro n rest h8
    obtain ⟨m, rfl⟩ := Nat.exists_eq_add_of_le h8
    have hrep : List.replicate (8 + m) false ++ true :: rest =
        false :: false :: false :: false :: false :: false :: false :: false ::
          (List.replicate m false ++ true :: rest) := by
      rw [List.replicate_add]
      rfl
    rw [hrep]
    simp [next_single, pop_byte, decode_header, process_stub, handle_sync_run,
      SYNC_MIN_ZEROS]
  · rfl

/-- C1 witness: at 47 zero bits followed by a set bit the decoder emits
`Sync`. -/
theorem C1_sync_threshold_witness :
    8 ≤ 47 ∧
      next_single ⟨none, List.replicate 47 false ++ true :: []⟩ =
        (if 47 ≤ 47 then (.ok .sync, ⟨none, []⟩)
         else (.error (.malformed (.invalidSync 47)), ⟨none, []⟩)) :=
  ⟨by decide, C1_sync_threshold.1 47 [] (by decide)⟩

/-- C2. For a continuation-bit timestamp payload decoded with
`max_bits = 27` (LTS1), the extracted value is the concatenation of the
low 7 bits of each non-final byte, first byte least significant, plus the
final byte masked by `(0xFF << shift) >> shift` (`shift = 7 - 27 % 7`)
placed at position `7 * (payload_len - 1)`; concretely, bytes
`C0 C9 01 50` decode to `LocalTimestamp1 {ts = 0xC9, data_relation = Sync}`
followed by `LocalTimestamp2 {ts = 5}`. -/
theorem C2_lts1_extraction :
    (∀ payload : List Nat, extract_timestamp payload 27 = extract_timestamp_spec payload 27)
    ∧ decodeAll 8 (initState [0xC0, 0xC9, 0x01, 0x50]) =
        [.ok (.localTimestamp1 0xC9 .sync), .ok (.localTimestamp2 5)] := by
  constructor
  · intro payload
    have hlow : ∀ l : List Nat, lts_low_bits l = extract_timestamp_spec.low l := by
      intro l
      induction l with
      | nil => rfl
      | cons b rest ih =>
        have hb : b &&& 127 = b % 128 := by
          have := Nat.and_pow_two_sub_one_eq_mod b 7
          norm_num at this
          exact this
        have hsh : lts_low_bits rest <<< 7 = 128 * extract_timestamp_spec.low rest := by
          rw [ih, Nat.shiftLeft_eq]
          ring
        have hlt : b % 128 < 2 ^ 7 := by
          have := Nat.mod_lt b (y := 128) (by norm_num)
          simpa using this
        calc lts_low_bits (b :: rest)
            = (b &&& 127) ||| (lts_low_bits rest <<< 7) := rfl
          _ = (b % 128) ||| (2 ^ 7 * extract_timestamp_spec.low rest) := by
              rw [hb, hsh]; norm_num
          _ = 2 ^ 7 * extract_timestamp_spec.low rest ||| b % 128 := Nat.or_comm _ _
          _ = 2 ^ 7 * extract_timestamp_spec.low rest + b % 128 :=
              (Nat.mul_add_lt_is_or hlt _).symm
          _ = b % 128 + 128 * extract_timestamp_spec.low rest := by ring
    have hlowlt : ∀ l : List Nat, lts_low_bits l < 2 ^ (7 * l.length) := by
      intro l
      induction l with
      | nil => simp [lts_low_bits]
      | cons b rest ih =>
        have h1 : b &&& 127 < 2 ^ (7 * (rest.length + 1)) := by
          have : b &&& 127 < 2 ^ 7 := by
            have h127 : (127 : Nat) < 2 ^ 7 := by norm_num
            exact Nat.lt_of_le_of_lt Nat.and_le_right h127
          exact Nat.lt_of_lt_of_le this (Nat.pow_le_pow_right (by norm_num) (by omega))
        have h2 : lts_low_bits rest <<< 7 < 2 ^ (7 * (rest.length + 1)) := by
          rw [Nat.shiftLeft_eq]
          calc lts_low_bits rest * 2 ^ 7 < 2 ^ (7 * rest.length) * 2 ^ 7 :=
                Nat.mul_lt_mul_of_lt_of_le ih (Nat.le_refl _) (by norm_num)
            _ = 2 ^ (7 * (rest.length + 1)) := by rw [← Nat.pow_add]; ring_nf
        simpa [lts_low_bits] using Nat.or_lt_two_pow h1 h2
    show lts_low_bits payload.dropLast |||
        ((payload.getLast?.getD 0 &&& _) <<< (7 * (payload.length - 1))) = _
    have hor : ∀ (a z k : Nat), a < 2 ^ (7 * k) →
        a ||| (z <<< (7 * k)) = a + z * 128 ^ k := by
      intro a z k ha
      have hsh : z <<< (7 * k) = 2 ^ (7 * k) * z := by
        rw [Nat.shiftLeft_eq]; ring
      calc a ||| (z <<< (7 * k)) = 2 ^ (7 * k) * z ||| a := by rw [hsh, Nat.or_comm]
        _ = 2 ^ (7 * k) * z + a := (Nat.mul_add_lt_is_or ha z).symm
        _ = a + z * 128 ^ k := by
            have : (2 : Nat) ^ (7 * k) = 128 ^ k := by
              rw [Nat.pow_mul]
            rw [this]; ring
    rw [hor _ _ _ (by simpa [List.length_dropLast] using hlowlt payload.dropLast),
      hlow]
    rfl
  · rfl

/-- C2 witness: the extraction equality evaluated at the payload
`[0xC9, 0x01]` of the concrete scenario. -/
theorem C2_lts1_extraction_witness :
    extract_timestamp [0xC9, 0x01] 27 = extract_timestamp_spec [0xC9, 0x01] 27 :=
  C2_lts1_extraction.1 [0xC9, 0x01]

/-- C4. At `ts = 246`, prescaler 1 and a 16 MHz timestamp clock, the exact
round-up offset demanded by the claim is exactly 15375 ns (the quotient is
exact, as the second conjunct shows); the source's `f64` evaluation of
`ceil((246 / 16e6) * 1e9)` returns 15376 ns instead. -/
theorem C4_exact_offset_at_failing_input :
    calc_offset 246 (some .enabled) 16000000 = 15375 ∧
      246 * 1000000000 % 16000000 = 0 := by
  constructor <;> decide

/-- Any `Ok` outcome of `handle_sync` is the `Sync` packet. -/
theorem handle_sync_ok {z : Nat} {bits : List Bool} {p : TracePacket} {st : DecState}
    (h : handle_sync z bits = (.ok p, st)) : p = .sync := by
  induction bits generalizing z with
  | nil => simp [handle_sync] at h
  | cons b rest ih =>
    cases b with
    | false => exact ih h
    | true =>
      simp only [handle_sync] at h
      split at h
      · exact (Prod.mk.injEq _ _ _ _ ▸ h).1 |> Except.ok.inj |> Eq.symm
      · simp at h

/-- From an equality of decoder results whose state component is a
literal Header state, the state on the other side is in the Header
state. -/
theorem state_sync_none_of_eq {r x : Except DecoderErrorInt TracePacket}
    {b : List Bool} {st : DecState}
    (h : (r, (⟨none, b⟩ : DecState)) = (x, st)) : st.sync = none := by
  have h2 : (⟨none, b⟩ : DecState) = st := congrArg Prod.snd h
  rw [← h2]

/-- A malformed-packet error from `handle_sync` leaves the decoder in the
Header state. -/
theorem handle_sync_malformed {z : Nat} {bits : List Bool} {m : MalformedPacket}
    {st : DecState} (h : handle_sync z bits = (.error (.malformed m), st)) :
    st.sync = none := by
  induction bits generalizing z with
  | nil => simp [handle_sync] at h
  | cons b rest ih =>
    cases b with
    | false => exact ih h
    | true =>
      simp only [handle_sync] at h
      split at h <;> exact state_sync_none_of_eq h

/-- A malformed-packet error from `process_stub` leaves the decoder in the
Header state. -/
theorem process_stub_malformed {stub : PacketStub} {bits : List Bool}
    {m : MalformedPacket} {st : DecState}
    (h : process_stub stub bits = (.error (.malformed m), st)) : st.sync = none := by
  cases stub with
  | syncStub count => exact handle_sync_malformed h
  | hardwareSource disc_id sz =>
    simp only [process_stub] at h
    split at h
    · exact state_sync_none_of_eq h
    · split at h <;> exact state_sync_none_of_eq h
  | localTimestamp dr =>
    simp only [process_stub] at h
    split at h <;> exact state_sync_none_of_eq h
  | globalTimestamp1 =>
    simp only [process_stub] at h
    split at h <;> exact state_sync_none_of_eq h
  | globalTimestamp2 =>
    simp only [process_stub] at h
    split at h
    · exact state_sync_none_of_eq h
    · split at h
      · exact state_sync_none_of_eq h
      · split at h <;> exact state_sync_none_of_eq h
  | instrumentation port sz =>
    simp only [process_stub] at h
    split at h <;> exact state_sync_none_of_eq h

/-- C9. A header-level error (the hardware-source discriminator outside
`{0,1,2} ∪ [8,23]`, or an invalid `ss` field) is returned with no payload
bytes consumed: the stream after the error is exactly the stream that
followed the header byte. And after any malformed-packet error the
decoder's state is reset to Header (`sync = none`), so following bytes
are decoded as fresh headers. -/
theorem C9_error_reset :
    (∀ (h : Nat) (rest : List Bool) (e : MalformedPacket), h < 256 →
      decode_header h = .error e →
      next_single ⟨none, byteBits h ++ rest⟩ = (.error (.malformed e), ⟨none, rest⟩))
    ∧ (∀ (s : DecState) (m : MalformedPacket) (s' : DecState),
        next_single s = (.error (.malformed m), s') → s'.sync = none) := by
  constructor
  · intro h rest e hh he
    simp [next_single, pop_byte_byteBits hh, he]
  · intro s m s' hs
    cases hsync : s.sync with
    | some zeros =>
      simp only [next_single, hsync] at hs
      exact handle_sync_malformed hs
    | none =>
      simp only [next_single, hsync] at hs
      split at hs
      · -- end of input: the state is returned unchanged, in Header state
        have h2 : s = s' := congrArg Prod.snd hs
        rw [← h2]
        exact hsync
      · split at hs
        · exact state_sync_none_of_eq hs
        · exact state_sync_none_of_eq hs
        · exact process_stub_malformed hs

/-- C9 witness: header byte `0x1D` carries hardware-source discriminator 3,
outside the valid set; the error consumes no payload, and the state after
a malformed-packet error is the Header state. -/
theorem C9_error_reset_witness :
    (0x1D : Nat) < 256 ∧
      next_single ⟨none, byteBits 0x1D ++ []⟩ =
        (.error (.malformed (.invalidHardwareDisc 3 1)), ⟨none, []⟩) :=
  ⟨by decide, C9_error_reset.1 0x1D [] (.invalidHardwareDisc 3 1) (by decide) (by decide)⟩

/-- The accumulated low bits of a payload occupy 7 bits per byte. -/
theorem lts_low_bits_lt (l : List Nat) : lts_low_bits l < 2 ^ (7 * l.length) := by
  induction l with
  | nil => simp [lts_low_bits]
  | cons b rest ih =>
    have h1 : b &&& 127 < 2 ^ (7 * (rest.length + 1)) := by
      have hb : b &&& 127 < 2 ^ 7 :=
        Nat.lt_of_le_of_lt Nat.and_le_right (by norm_num)
      exact Nat.lt_of_lt_of_le hb (Nat.pow_le_pow_right (by norm_num) (by omega))
    have h2 : lts_low_bits rest <<< 7 < 2 ^ (7 * (rest.length + 1)) := by
      rw [Nat.shiftLeft_eq]
      calc lts_low_bits rest * 2 ^ 7 < 2 ^ (7 * rest.length) * 2 ^ 7 :=
            Nat.mul_lt_mul_of_lt_of_le ih (Nat.le_refl _) (by norm_num)
        _ = 2 ^ (7 * (rest.length + 1)) := by rw [← Nat.pow_add]; ring_nf
    simpa [lts_low_bits] using Nat.or_lt_two_pow h1 h2

/-- The extracted timestamp occupies at most 7 bits per non-final payload
byte plus however many bits the final-byte mask keeps. -/
theorem extract_timestamp_bound (payload : List Nat) (m c : Nat)
    (hmask : ((0xFF <<< (7 - m % 7)) % 256) >>> (7 - m % 7) < 2 ^ c) :
    extract_timestamp payload m < 2 ^ (7 * (payload.length - 1) + c) := by
  show lts_low_bits payload.dropLast |||
      ((payload.getLast?.getD 0 &&& ((0xFF <<< (7 - m % 7)) % 256) >>> (7 - m % 7)) <<<
        (7 * (payload.length - 1))) < _
  apply Nat.or_lt_two_pow
  · have h := lts_low_bits_lt payload.dropLast
    rw [List.length_dropLast] at h
    exact Nat.lt_of_lt_of_le h (Nat.pow_le_pow_right (by norm_num) (by omega))
  · rw [Nat.shiftLeft_eq]
    have hb : payload.getLast?.getD 0 &&& ((0xFF <<< (7 - m % 7)) % 256) >>> (7 - m % 7) <
        2 ^ c := Nat.lt_of_le_of_lt Nat.and_le_right hmask
    calc _ < 2 ^ c * 2 ^ (7 * (payload.length - 1)) :=
          Nat.mul_lt_mul_of_lt_of_le hb (Nat.le_refl _) (Nat.pos_pow_of_pos _ (by norm_num))
      _ = 2 ^ (7 * (payload.length - 1) + c) := by rw [← Nat.pow_add]; ring_nf

/-- Every `Ok` outcome of `handle_hardware_source` is a hardware-source
packet, never a `LocalTimestamp2`. -/
theorem handle_hardware_source_not_lts2 {d : Nat} {pl : List Nat} {p : TracePacket}
    (h : handle_hardware_source d pl = .ok p) : p.isLts2 = false := by
  unfold handle_hardware_source at h
  simp only [] at h
  split at h
  · split at h
    · injection h with h2; subst h2; rfl
    · simp at h
  · split at h
    · split at h
      · split at h
        · simp at h
        · split at h
          · simp at h
          · split at h
            · injection h with h2; subst h2; rfl
            · split at h
              · injection h with h2; subst h2; rfl
              · split at h
                · injection h with h2; subst h2; rfl
                · simp at h
      · simp at h
    · split at h
      · split at h
        · split at h
          · injection h with h2; subst h2; rfl
          · simp at h
        · injection h with h2; subst h2; rfl
        · simp at h
      · split at h
        · injection h with h2; subst h2; rfl
        · split at h
          · injection h with h2; subst h2; rfl
          · split at h
            · injection h with h2; subst h2; rfl
            · simp at h

/-- Every `Ok` outcome of `process_stub` other than a `LocalTimestamp1` is
not a local timestamp; in particular no stub yields `LocalTimestamp2`. -/
theorem process_stub_not_lts2 {stub : PacketStub} {bits : List Bool} {p : TracePacket}
    {st : DecState} (h : process_stub stub bits = (.ok p, st)) : p.isLts2 = false := by
  cases stub with
  | syncStub count => rw [handle_sync_ok h]; rfl
  | hardwareSource disc_id sz =>
    simp only [process_stub] at h
    split at h
    · simp at h
    · split at h
      · have h1 : Except.ok _ = Except.ok p := congrArg Prod.fst h
        exact handle_hardware_source_not_lts2 (by assumption) ▸
          (Except.ok.inj h1 ▸ rfl)
      · simp at h
  | localTimestamp dr =>
    simp only [process_stub] at h
    split at h
    · simp at h
    · have h1 := congrArg Prod.fst h
      simp only at h1
      rw [← Except.ok.inj h1]
      rfl
  | globalTimestamp1 =>
    simp only [process_stub] at h
    split at h
    · simp at h
    · have h1 := congrArg Prod.fst h
      simp only at h1
      rw [← Except.ok.inj h1]
      rfl
  | globalTimestamp2 =>
    simp only [process_stub] at h
    split at h
    · simp at h
    · split at h
      · have h1 := congrArg Prod.fst h
        simp only at h1
        rw [← Except.ok.inj h1]
        rfl
      · split at h
        · have h1 := congrArg Prod.fst h
          simp only at h1
          rw [← Except.ok.inj h1]
          rfl
        · simp at h
  | instrumentation port sz =>
    simp only [process_stub] at h
    split at h
    · simp at h
    · have h1 := congrArg Prod.fst h
      simp only at h1
      rw [← Except.ok.inj h1]
      rfl

set_option maxRecDepth 8192 in
/-- A `LocalTimestamp2` produced by the header decoder has its field in
`[1, 6]` (header bytes `0x00` and `0x70` are taken by Sync and Overflow
first). -/
theorem decode_header_lts2_range {h t : Nat} (hh : h < 256)
    (he : decode_header h = .ok (.packet (.localTimestamp2 t))) : 1 ≤ t ∧ t ≤ 6 := by
  have key : ∀ h' : Nat, h' < 256 →
      (match decode_header h' with
       | .ok (.packet (.localTimestamp2 t')) => decide (1 ≤ t' ∧ t' ≤ 6)
       | _ => true) = true := by decide
  have hk := key h hh
  rw [he] at hk
  exact of_decide_eq_true hk

/-- C6 (amended). Every emitted `LocalTimestamp2` has ts in `[1, 6]`; a
timestamp extracted with `max_bits = 27` (LTS1) from a payload of at most
4 bytes fits in 28 bits — not 27, since the final-byte mask for 27 keeps 7
bits — and a timestamp extracted with `max_bits = 25` (GTS1) from a
payload of at most 4 bytes fits in 26 bits. Longer, non-conforming
continuation payloads (which the decoder accepts) produce larger
values. -/
theorem C6_timestamp_ranges :
    (∀ (s : DecState) (t : Nat) (s' : DecState),
      next_single s = (.ok (.localTimestamp2 t), s') → 1 ≤ t ∧ t ≤ 6)
    ∧ (∀ payload : List Nat, payload.length ≤ 4 → extract_timestamp payload 27 < 2 ^ 28)
    ∧ (∀ payload : List Nat, payload.length ≤ 4 → extract_timestamp payload 25 < 2 ^ 26) := by
  refine ⟨?_, ?_, ?_⟩
  · intro s t s' hns
    cases hsync : s.sync with
    | some zeros =>
      simp only [next_single, hsync] at hns
      have := handle_sync_ok hns
      simp at this
    | none =>
      simp only [next_single, hsync] at hns
      split at hns
      · simp at hns
      · split at hns
        · simp at hns
        · have h1 := congrArg Prod.fst hns
          simp only at h1
          have hp := Except.ok.inj h1
          rename_i hb hd
          subst hp
          exact decode_header_lts2_range (pop_byte_lt (by assumption)) (by assumption)
        · have := process_stub_not_lts2 hns
          simp [TracePacket.isLts2] at this
  · intro payload hlen
    have h := extract_timestamp_bound payload 27 7 (by decide)
    exact Nat.lt_of_lt_of_le h (Nat.pow_le_pow_right (by norm_num) (by omega))
  · intro payload hlen
    have h := extract_timestamp_bound payload 25 5 (by decide)
    exact Nat.lt_of_lt_of_le h (Nat.pow_le_pow_right (by norm_num) (by omega))

/-- C6 counterexample: the four-byte payload `81 87 9F 7F` — the nominal
maximum length for LTS1 — decodes to an emitted `LocalTimestamp1` whose
ts is a 28-bit value, at least `2^27`. -/
theorem C6_counterexample :
    decodeAll 8 (initState [0xC0, 0x81, 0x87, 0x9F, 0x7F]) =
      [.ok (.localTimestamp1 266847105 .sync)] ∧ 2 ^ 27 ≤ 266847105 :=
  ⟨rfl, by norm_num⟩

/-- C6 witness: the range facts evaluated at the concrete stream `0x50`
(a `LocalTimestamp2` with ts = 5) and at a one-byte payload. -/
theorem C6_timestamp_ranges_witness :
    (next_single (initState [0x50]) = (.ok (.localTimestamp2 5), ⟨none, []⟩) ∧
      1 ≤ 5 ∧ 5 ≤ 6) ∧
    (([0x81] : List Nat).length ≤ 4 ∧ extract_timestamp [0x81] 27 < 2 ^ 28) ∧
    (([0x81] : List Nat).length ≤ 4 ∧ extract_timestamp [0x81] 25 < 2 ^ 26) :=
  ⟨⟨rfl, C6_timestamp_ranges.1 (initState [0x50]) 5 ⟨none, []⟩ rfl⟩,
   ⟨by decide, C6_timestamp_ranges.2.1 [0x81] (by decide)⟩,
   ⟨by decide, C6_timestamp_ranges.2.2 [0x81] (by decide)⟩⟩

/-- The bit stream of a byte list starts with the first byte's bits. -/
theorem bitsOfBytes_cons (b : Nat) (bs : List Nat) :
    bitsOfBytes (b :: bs) = byteBits b ++ bitsOfBytes bs := by
  simp [bitsOfBytes]

/-- The bit stream of a byte list holds 8 bits per byte. -/
theorem bitsOfBytes_length (bs : List Nat) : (bitsOfBytes bs).length = 8 * bs.length := by
  induction bs with
  | nil => rfl
  | cons b rest ih =>
    rw [bitsOfBytes_cons, List.length_append, ih]
    simp [byteBits]
    omega

/-- The payload loop consumes any run of continuation bytes (`0x80`)
followed by a terminator, however long, given fuel beyond the byte
count. -/
theorem pop_payload_fuel_replicate (n : Nat) :
    ∀ fuel, n + 1 ≤ fuel → ∀ tail : List Bool,
      pop_payload_fuel fuel (bitsOfBytes (List.replicate n 128 ++ [0]) ++ tail) =
        .ok (List.replicate n 128 ++ [0], tail) := by
  induction n with
  | zero =>
    intro fuel hf tail
    match fuel, hf with
    | f + 1, _ =>
      have hb : bitsOfBytes (List.replicate 0 128 ++ [0]) ++ tail = byteBits 0 ++ tail := by
        simp [bitsOfBytes]
      rw [hb]
      simp only [pop_payload_fuel, pop_byte_byteBits (by norm_num : (0:Nat) < 256) tail]
      norm_num
  | succ k ih =>
    intro fuel hf tail
    match fuel, hf with
    | f + 1, hf =>
      have hb : bitsOfBytes (List.replicate (k + 1) 128 ++ [0]) ++ tail =
          byteBits 128 ++ (bitsOfBytes (List.replicate k 128 ++ [0]) ++ tail) := by
        rw [List.replicate_succ, List.cons_append, bitsOfBytes_cons, List.append_assoc]
      rw [hb]
      simp only [pop_payload_fuel, pop_byte_byteBits (by norm_num : (128:Nat) < 256)]
      norm_num
      rw [ih f (by omega) tail]
      simp [List.replicate_succ]

/-- C8 (amended). LTS1 and GTS1 consume the entire continuation payload,
which can be arbitrarily long — there is no 5-byte cap (first conjunct: a
payload of `n` continuation bytes plus terminator is consumed whole).
Decoding an LTS1 or GTS1 stub consumes exactly the continuation payload
and nothing else; a GTS2 stub succeeds only on payloads of length 4 or 6,
and any other length yields `InvalidGTS2Size` after the payload has been
fully consumed (the remaining stream is exactly what followed the
payload). -/
theorem C8_payload_consumption :
    (∀ n : Nat, pop_payload (bitsOfBytes (List.replicate n 128 ++ [0])) =
        .ok (List.replicate n 128 ++ [0], []))
    ∧ (∀ (bits : List Bool) (payload : List Nat) (rest : List Bool)
        (dr : TimestampDataRelation), pop_payload bits = .ok (payload, rest) →
        process_stub (.localTimestamp dr) bits =
          (.ok (.localTimestamp1 (extract_timestamp payload 27 % 4294967296) dr), ⟨none, rest⟩))
    ∧ (∀ (bits : List Bool) (payload : List Nat) (rest : List Bool),
        pop_payload bits = .ok (payload, rest) →
        process_stub .globalTimestamp1 bits =
          (.ok (.globalTimestamp1 (extract_timestamp payload 25)
            ((payload.getLast?.getD 0).testBit 6) ((payload.getLast?.getD 0).testBit 5)),
           ⟨none, rest⟩))
    ∧ (∀ (bits : List Bool) (payload : List Nat) (rest : List Bool),
        pop_payload bits = .ok (payload, rest) →
        process_stub .globalTimestamp2 bits =
          (if payload.length = 4 then
            (.ok (.globalTimestamp2 (extract_timestamp payload 21)), ⟨none, rest⟩)
           else if payload.length = 6 then
            (.ok (.globalTimestamp2 (extract_timestamp payload 37)), ⟨none, rest⟩)
           else (.error (.malformed (.invalidGTS2Size payload)), ⟨none, rest⟩))) := by
  refine ⟨?_, ?_, ?_, ?_⟩
  · intro n
    unfold pop_payload
    have hl : (bitsOfBytes (List.replicate n 128 ++ [0])).length = 8 * (n + 1) := by
      rw [bitsOfBytes_length]
      simp
    rw [hl]
    have := pop_payload_fuel_replicate n (8 * (n + 1)) (by omega) []
    simpa using this
  · intro bits payload rest dr h
    simp [process_stub, h]
  · intro bits payload rest h
    simp [process_stub, h]
  · intro bits payload rest h
    simp only [process_stub, h]

/-- C7 (amended). Exception-trace decoding maps a 9-bit exception number
at least 16 (and below 256) to an external interrupt whose `irqn` field is
the raw exception number — not `number - 16` — and maps function values 1,
2, 3 to Entered, Exited, Returned, any other function value yielding
`InvalidExceptionTrace`; concretely, `0E 20 30` decodes to an
`ExceptionTrace` for interrupt 32 with action Returned. -/
theorem C7_exception_trace :
    (∀ b0 b1 : Nat, b0 < 256 → b1 &&& 1 = 0 → 16 ≤ b0 →
      handle_hardware_source 1 [b0, b1] =
        (if (b1 >>> 4) &&& 3 = 1 then .ok (.exceptionTrace (.interrupt b0) .entered)
         else if (b1 >>> 4) &&& 3 = 2 then .ok (.exceptionTrace (.interrupt b0) .exited)
         else if (b1 >>> 4) &&& 3 = 3 then .ok (.exceptionTrace (.interrupt b0) .returned)
         else .error (.invalidExceptionTrace b0 ((b1 >>> 4) &&& 3))))
    ∧ decodeAll 8 (initState [0x0E, 0x20, 0x30]) =
        [.ok (.exceptionTrace (.interrupt 32) .returned)] := by
  constructor
  · intro b0 b1 hb0 hb1 h16
    have hm : b1 % 2 = 0 := by
      rw [← Nat.and_one_is_mod]
      exact hb1
    have h256 : ¬ 256 ≤ b0 := by omega
    simp [handle_hardware_source, hm, h256, vect_active_of_nat, h16]
  · rfl

/-- C3. On every `GlobalTimestamp1 {ts, wrap, clkch}` packet, the
timestamp reducer continues its loop with a state in which `gts.lower` was
first updated by prefix merge (if no previous lower, `ts`; else
`((old >> shift) << shift) ||| ts` with `shift = 64 - leading_zeros ts`);
then, if `wrap` is set only `gts.upper` is cleared; else if `clkch` is set
both halves are cleared; else, when the upper half is present, the new
`current_offset` is assigned (not added) the duration computed from
`merged = (upper << 26) ||| lower`. -/
theorem C3_gts1_reducer_update :
    ∀ (options : TimestampsConfiguration) (fuel : Nat) (s : TsState)
      (packets : List TracePacket) (malformed : List MalformedPacket) (consumed : Nat)
      (ts : Nat) (wrap clkch : Bool) (d' : DecState),
      next_single s.dec = (.ok (.globalTimestamp1 ts wrap clkch), d') →
      next_timestamped_fuel options (fuel + 1) s packets malformed consumed =
        next_timestamped_fuel options fuel
          ⟨d',
           (if wrap then s.current_offset
            else if clkch then s.current_offset
            else
              match s.gts.upper with
              | none => s.current_offset
              | some upper =>
                calc_offset
                  ((upper <<< 26) % 2 ^ 64 |||
                    (match s.gts.lower with
                     | none => ts
                     | some old =>
                       ((old >>> (64 - leading_zeros64 ts)) <<< (64 - leading_zeros64 ts)) ||| ts))
                  none options.clock_frequency),
           (if wrap then
              ⟨some (match s.gts.lower with
                     | none => ts
                     | some old =>
                       ((old >>> (64 - leading_zeros64 ts)) <<< (64 - leading_zeros64 ts)) ||| ts),
               none⟩
            else if clkch then ⟨none, none⟩
            else
              ⟨some (match s.gts.lower with
                     | none => ts
                     | some old =>
                       ((old >>> (64 - leading_zeros64 ts)) <<< (64 - leading_zeros64 ts)) ||| ts),
               s.gts.upper⟩)⟩
          packets malformed (consumed + 1) := by
  intro options fuel s packets malformed consumed ts w c d' h
  simp only [next_timestamped_fuel, h]
  cases hl : s.gts.lower with
  | none =>
    cases w with
    | true => simp [Gts.replace_lower, hl]
    | false =>
      cases c with
      | true => simp [Gts.replace_lower, Gts.reset, hl]
      | false =>
        cases hu : s.gts.upper with
        | none => simp [Gts.replace_lower, apply_gts, Gts.merge, GTS2_SHIFT, hl, hu]
        | some upper => simp [Gts.replace_lower, apply_gts, Gts.merge, GTS2_SHIFT, hl, hu]
  | some old =>
    cases w with
    | true => simp [Gts.replace_lower, hl]
    | false =>
      cases c with
      | true => simp [Gts.replace_lower, Gts.reset, hl]
      | false =>
        cases hu : s.gts.upper with
        | none => simp [Gts.replace_lower, apply_gts, Gts.merge, GTS2_SHIFT, hl, hu]
        | some upper => simp [Gts.replace_lower, apply_gts, Gts.merge, GTS2_SHIFT, hl, hu]

/-- When the reducer sees neither a global timestamp nor a malformed
packet before the closing local timestamp, the batch it returns has an
offset at least the entering `current_offset`, and the state's
`current_offset` leaves equal to the batch offset. -/
theorem next_timestamped_offset_mono :
    ∀ (options : TimestampsConfiguration) (fuel : Nat) (s : TsState)
      (packets : List TracePacket) (malformed : List MalformedPacket) (consumed : Nat)
      (b : TimestampedTracePackets) (s' : TsState),
      noGtsBeforeLts fuel s.dec = true →
      next_timestamped_fuel options fuel s packets malformed consumed = (.ok b, s') →
      s.current_offset ≤ b.timestamp.offset ∧ s'.current_offset = b.timestamp.offset := by
  intro options fuel
  induction fuel with
  | zero =>
    intro s packets malformed consumed b s' hg hr
    simp [noGtsBeforeLts] at hg
  | succ f ih =>
    intro s packets malformed consumed b s' hg hr
    simp only [noGtsBeforeLts] at hg
    simp only [next_timestamped_fuel] at hr
    rcases hns : next_single s.dec with ⟨r, d2⟩
    rw [hns] at hg hr
    cases r with
    | error e => simp at hg
    | ok p =>
      cases p
      case localTimestamp1 ts dr =>
        simp only [apply_lts] at hr
        rw [Prod.mk.injEq] at hr
        obtain ⟨h1, h2⟩ := hr
        have hb := Except.ok.inj h1
        subst hb
        subst h2
        exact ⟨Nat.le_add_right _ _, rfl⟩
      case localTimestamp2 ts =>
        simp only [apply_lts] at hr
        rw [Prod.mk.injEq] at hr
        obtain ⟨h1, h2⟩ := hr
        have hb := Except.ok.inj h1
        subst hb
        subst h2
        exact ⟨Nat.le_add_right _ _, rfl⟩
      case globalTimestamp1 gts wrap clkch =>
        simp [TracePacket.isLts, TracePacket.isGts] at hg
      case globalTimestamp2 gts =>
        simp [TracePacket.isLts, TracePacket.isGts] at hg
      all_goals
        simp only [TracePacket.isLts, TracePacket.isGts, Bool.not_false, Bool.true_and,
          Bool.false_or] at hg
      all_goals
        exact ih ⟨d2, s.current_offset, s.gts⟩ _ _ _ b s' hg hr

/-- C5 (amended). Consecutive batch timestamp offsets are monotonically
non-decreasing provided no global-timestamp packet is decoded inside
either pull: local timestamps only ever add a non-negative delta to
`current_offset`, and the batch offset equals the updated
`current_offset`. (A global timestamp assigns the offset and can move it
backwards; see the counterexample.) -/
theorem C5_monotone_batches :
    ∀ (options : TimestampsConfiguration) (fuel1 fuel2 : Nat) (s s1 s2 : TsState)
      (b1 b2 : TimestampedTracePackets),
      noGtsBeforeLts fuel1 s.dec = true →
      next_timestamped_fuel options fuel1 s [] [] 0 = (.ok b1, s1) →
      noGtsBeforeLts fuel2 s1.dec = true →
      next_timestamped_fuel options fuel2 s1 [] [] 0 = (.ok b2, s2) →
      b1.timestamp.offset ≤ b2.timestamp.offset := by
  intro options fuel1 fuel2 s s1 s2 b1 b2 hg1 h1 hg2 h2
  have r1 := next_timestamped_offset_mono options fuel1 s [] [] 0 b1 s1 hg1 h1
  have r2 := next_timestamped_offset_mono options fuel2 s1 [] [] 0 b2 s2 hg2 h2
  calc b1.timestamp.offset = s1.current_offset := r1.2.symm
    _ ≤ b2.timestamp.offset := r2.1

/-- C10. If the underlying decoder reaches end of input yielding only
packets that are not local timestamps, `next_timestamped` returns end of
input — the buffered packets are discarded and no partial batch is built —
and the `Timestamps` iterator signals end of iteration (`none`). -/
theorem C10_no_partial_batch :
    (∀ (options : TimestampsConfiguration) (fuel : Nat) (s : TsState)
      (packets : List TracePacket) (malformed : List MalformedPacket) (consumed : Nat),
      endsWithoutLts fuel s.dec = true →
      (next_timestamped_fuel options fuel s packets malformed consumed).1 = .error .eof)
    ∧ (∀ (options : TimestampsConfiguration) (s : TsState),
        endsWithoutLts (s.dec.bits.length + 1) s.dec = true →
        (timestamps_next options s).1 = none) := by
  have main : ∀ (options : TimestampsConfiguration) (fuel : Nat) (s : TsState)
      (packets : List TracePacket) (malformed : List MalformedPacket) (consumed : Nat),
      endsWithoutLts fuel s.dec = true →
      (next_timestamped_fuel options fuel s packets malformed consumed).1 = .error .eof := by
    intro options fuel
    induction fuel with
    | zero =>
      intro s packets malformed consumed hg
      simp [endsWithoutLts] at hg
    | succ f ih =>
      intro s packets malformed consumed hg
      simp only [endsWithoutLts] at hg
      simp only [next_timestamped_fuel]
      rcases hns : next_single s.dec with ⟨r, d2⟩
      rw [hns] at hg
      cases r with
      | error e =>
        cases e with
        | eof => rfl
        | malformed m => simp at hg
      | ok p =>
        cases p
        case localTimestamp1 ts dr => simp [TracePacket.isLts] at hg
        case localTimestamp2 ts => simp [TracePacket.isLts] at hg
        case globalTimestamp1 gts wrap clkch =>
          simp only [TracePacket.isLts, TracePacket.isGts, Bool.not_false, Bool.true_and,
            Bool.false_or] at hg
          cases wrap with
          | true =>
            apply ih
            exact hg
          | false =>
            cases clkch with
            | true =>
              apply ih
              exact hg
            | false =>
              apply ih
              exact hg
        case globalTimestamp2 gts =>
          simp only [TracePacket.isLts, TracePacket.isGts, Bool.not_false, Bool.true_and,
            Bool.false_or] at hg
          apply ih
          exact hg
        all_goals
          simp only [TracePacket.isLts, TracePacket.isGts, Bool.not_false, Bool.true_and,
            Bool.false_or] at hg
        all_goals (apply ih; exact hg)
  refine ⟨main, ?_⟩
  intro options s hg
  have h1 := main options (s.dec.bits.length + 1) s [] [] 0 hg
  unfold timestamps_next next_timestamped
  rcases hrr : next_timestamped_fuel options (s.dec.bits.length + 1) s [] [] 0 with ⟨r, s2⟩
  unfold next_timestamped at h1
  rw [hrr] at h1
  simp only at h1
  subst h1
  rfl

/-- C7 counterexample: `0E 20 30` carries exception number 32, and the
decoder emits external interrupt `irqn = 32`, not `32 - 16` as the claim's
general mapping demands. -/
theorem C7_counterexample :
    decodeAll 8 (initState [0x0E, 0x20, 0x30]) =
      [.ok (.exceptionTrace (.interrupt 32) .returned)] ∧ (32 : Nat) ≠ 32 - 16 :=
  ⟨rfl, by decide⟩

/-- C7 witness: the amended mapping evaluated at payload bytes
`20 30`. -/
theorem C7_exception_trace_witness :
    ((0x20 : Nat) < 256 ∧ (0x30 : Nat) &&& 1 = 0 ∧ 16 ≤ (0x20 : Nat)) ∧
    handle_hardware_source 1 [0x20, 0x30] =
      (if (0x30 >>> 4) &&& 3 = 1 then .ok (.exceptionTrace (.interrupt 0x20) .entered)
       else if (0x30 >>> 4) &&& 3 = 2 then .ok (.exceptionTrace (.interrupt 0x20) .exited)
       else if (0x30 >>> 4) &&& 3 = 3 then .ok (.exceptionTrace (.interrupt 0x20) .returned)
       else .error (.invalidExceptionTrace 0x20 ((0x30 >>> 4) &&& 3))) :=
  ⟨⟨by decide, by decide, by decide⟩,
   C7_exception_trace.1 0x20 0x30 (by decide) (by decide) (by decide)⟩

/-- C8 counterexample: a single LTS1 packet whose continuation payload is
6 bytes long (`FF FF FF FF FF 7F`) is decoded in one pull, consuming the
whole 56-bit stream — more than the claimed 5-byte maximum. -/
theorem C8_counterexample :
    next_single (initState [0xC0, 0xFF, 0xFF, 0xFF, 0xFF, 0xFF, 0x7F]) =
      (.ok (.localTimestamp1 4294967295 .sync), ⟨none, []⟩) ∧
    (initState [0xC0, 0xFF, 0xFF, 0xFF, 0xFF, 0xFF, 0x7F]).bits.length = 56 :=
  ⟨rfl, rfl⟩

/-- C8 witness: the LTS1 consumption fact evaluated at the one-byte
payload `0x01`. -/
theorem C8_payload_consumption_witness :
    pop_payload (bitsOfBytes [0x01]) = .ok ([0x01], []) ∧
    process_stub (.localTimestamp .sync) (bitsOfBytes [0x01]) =
      (.ok (.localTimestamp1 (extract_timestamp [0x01] 27 % 4294967296) .sync), ⟨none, []⟩) :=
  ⟨by decide, C8_payload_consumption.2.1 (bitsOfBytes [0x01]) [0x01] [] .sync (by decide)⟩

/-- C3 witness: the reducer update evaluated on the concrete stream
`94 01` (a GTS1 with ts = 1, wrap and clkch clear). -/
theorem C3_gts1_reducer_update_witness :
    next_single (initTsState [0x94, 0x01]).dec =
        (.ok (.globalTimestamp1 1 false false), ⟨none, []⟩) ∧
    next_timestamped_fuel ⟨16000000, .enabled, false⟩ 1 (initTsState [0x94, 0x01]) [] [] 0 =
      next_timestamped_fuel ⟨16000000, .enabled, false⟩ 0
        ⟨⟨none, []⟩, 0, ⟨some 1, none⟩⟩ [] [] 1 := by
  refine ⟨by decide, ?_⟩
  have h := C3_gts1_reducer_update ⟨16000000, .enabled, false⟩ 0 (initTsState [0x94, 0x01])
    [] [] 0 1 false false ⟨none, []⟩ (by decide)
  exact h

set_option maxRecDepth 100000 in
/-- C5 counterexample: on a legal stream (LTS1 with ts `3·2^21`, then a
GTS1/GTS2 pair whose merged value is `2^21`, then LTS1 with ts `2^21`, at
a `2^30` Hz clock) the first batch has offset 5859375 ns and the second
3906250 ns — the offsets decrease, because the complete global timestamp
assigns `current_offset` backwards. At these inputs every offset is a
dyadic rational scaled to an exact integer of nanoseconds, so the `f64`
computation of the source agrees with this model exactly. -/
theorem C5_counterexample :
    (next_timestamped ⟨1073741824, .enabled, false⟩
        (initTsState [0xC0, 0x80, 0x80, 0x80, 0x03, 0x94, 0x80, 0x80, 0x80, 0x01,
          0xB4, 0x80, 0x80, 0x80, 0x00, 0xC0, 0x80, 0x80, 0x80, 0x01])).1 =
      .ok ⟨⟨5859375, .sync⟩, [], [], 1⟩ ∧
    (next_timestamped ⟨1073741824, .enabled, false⟩
        (next_timestamped ⟨1073741824, .enabled, false⟩
          (initTsState [0xC0, 0x80, 0x80, 0x80, 0x03, 0x94, 0x80, 0x80, 0x80, 0x01,
            0xB4, 0x80, 0x80, 0x80, 0x00, 0xC0, 0x80, 0x80, 0x80, 0x01])).2).1 =
      .ok ⟨⟨3906250, .sync⟩, [], [], 3⟩ ∧
    (3906250 : Nat) < 5859375 :=
  ⟨rfl, rfl, by norm_num⟩

/-- C5 witness: two consecutive batches over the stream `50 60` (two
LocalTimestamp2 packets), with offsets 313 ≤ 688. -/
theorem C5_monotone_batches_witness :
    (noGtsBeforeLts 1 (initTsState [0x50, 0x60]).dec = true ∧
     next_timestamped_fuel ⟨16000000, .enabled, false⟩ 1 (initTsState [0x50, 0x60]) [] [] 0 =
       (.ok ⟨⟨313, .sync⟩, [], [], 1⟩, ⟨⟨none, bitsOfBytes [0x60]⟩, 313, ⟨none, none⟩⟩) ∧
     noGtsBeforeLts 1 (⟨⟨none, bitsOfBytes [0x60]⟩, 313, ⟨none, none⟩⟩ : TsState).dec = true ∧
     next_timestamped_fuel ⟨16000000, .enabled, false⟩ 1
       ⟨⟨none, bitsOfBytes [0x60]⟩, 313, ⟨none, none⟩⟩ [] [] 0 =
       (.ok ⟨⟨688, .sync⟩, [], [], 1⟩, ⟨⟨none, []⟩, 688, ⟨none, none⟩⟩)) ∧
    (313 : Nat) ≤ 688 :=
  ⟨⟨by decide, by decide, by decide, by decide⟩,
   C5_monotone_batches ⟨16000000, .enabled, false⟩ 1 1 (initTsState [0x50, 0x60])
     ⟨⟨none, bitsOfBytes [0x60]⟩, 313, ⟨none, none⟩⟩ ⟨⟨none, []⟩, 688, ⟨none, none⟩⟩
     ⟨⟨313, .sync⟩, [], [], 1⟩ ⟨⟨688, .sync⟩, [], [], 1⟩
     (by decide) (by decide) (by decide) (by decide)⟩

/-- C10 witness: a stream holding a single Overflow packet and no local
timestamp yields end of iteration. -/
theorem C10_no_partial_batch_witness :
    endsWithoutLts ((initTsState [0x70]).dec.bits.length + 1) (initTsState [0x70]).dec = true ∧
    (timestamps_next ⟨16000000, .enabled, false⟩ (initTsState [0x70])).1 = none :=
  ⟨by decide, C10_no_partial_batch.2 ⟨16000000, .enabled, false⟩ (initTsState [0x70]) (by decide)⟩

end ITM
